import Mathlib

/-!
Verification of the `dump_table` example of the samply repository
(src/examples/dump_table/src/main.rs), a shallow embedding in Lean 4.

The embedding covers:
* the `CompactSymbolTable` data model (`addr`, `index`, `buffer`),
* the identifier negotiator `get_symbols_retry_id` (main.rs lines 83-133),
  with the external extractor `profiler_get_symbols::get_compact_symbol_table`
  modelled as an oracle function, and extractor calls recorded in a trace,
* the `Helper` file-access provider
  (`get_candidate_paths_for_binary_or_pdb`, `read_file`, lines 143-175),
  with the filesystem modelled as an oracle,
* the symbol-dump loop of `dump_table` (lines 55-69), with Rust panics
  (out-of-bounds indexing/slicing) and the `Utf8Error` branch made explicit
  as error values.
-/

namespace DumpTable

/-- The compact symbol table produced by the extractor.
Rust: `CompactSymbolTable { addr: Vec<u32>, index: Vec<u32>, buffer: Vec<u8> }`.
Machine integers are embedded as `Nat`; no arithmetic is performed on them
by the code under verification, so no overflow reduction is needed. -/
structure CompactSymbolTable where
  addr : List Nat
  index : List Nat
  buffer : List Nat
deriving DecidableEq, Repr

/-- The extractor's structured error type, as consumed by the match arms of
`get_symbols_retry_id` (main.rs lines 102-125): an identifier mismatch
carrying the expected and the supplied breakpad ID, a multi-arch bundle of
sub-errors, and a catch-all for every other failure class. -/
inductive GetSymbolsError where
  | unmatchedBreakpadId (expected : String) (got : String)
  | noMatchMultiArch (errors : List GetSymbolsError)
  | other (msg : String)
deriving Repr

/-- `true` exactly on the `UnmatchedBreakpadId` shape (a clean identifier
mismatch). -/
def GetSymbolsError.isCleanMismatch : GetSymbolsError → Bool
  | .unmatchedBreakpadId _ _ => true
  | _ => false

/-- `true` exactly on the `NoMatchMultiArch` shape. -/
def GetSymbolsError.isMultiArch : GetSymbolsError → Bool
  | .noMatchMultiArch _ => true
  | _ => false

/-- The expected identifier carried by a clean mismatch (junk elsewhere). -/
def GetSymbolsError.expectedId : GetSymbolsError → String
  | .unmatchedBreakpadId expected _ => expected
  | _ => ""

/-- The extractor oracle: `profiler_get_symbols::get_compact_symbol_table`,
an external collaborator taking a debug name and a breakpad ID and returning
a table or a structured error. -/
def Extractor : Type :=
  String → String → Except GetSymbolsError CompactSymbolTable

/-- What a single invocation of the negotiator observably does.
`processExit code printedIds` models `std::process::exit(code)` at main.rs
line 122, after printing the candidate IDs of lines 119-121. -/
inductive NegotiationOutcome where
  | ok (table : CompactSymbolTable)
  | error (e : GetSymbolsError)
  | processExit (code : Nat) (printedIds : List String)
deriving Repr

/-- Result of one negotiator invocation: the outcome, plus the trace of
extractor calls issued, in issue order, each as (debugName, breakpadId). -/
structure NegotiationResult where
  outcome : NegotiationOutcome
  calls : List (String × String)
deriving Repr

/-- main.rs lines 110-117: walk the sub-errors of a `NoMatchMultiArch`,
collecting the expected ID of every clean mismatch in order; the first
sub-error of any other shape is returned as a hard error (the Rust loop
does `return Err(err.into())`, discarding the partial list). -/
def collectPotentialIds : List GetSymbolsError → Except GetSymbolsError (List String)
  | [] => .ok []
  | .unmatchedBreakpadId expected _ :: rest =>
    match collectPotentialIds rest with
    | .ok ids => .ok (expected :: ids)
    | .error e => .error e
  | err :: _ => .error err

/-- An extractor result viewed as a negotiation outcome: `Ok`/`Err`
returned unchanged. -/
def toOutcome : Except GetSymbolsError CompactSymbolTable → NegotiationOutcome
  | .ok t => .ok t
  | .error e => .error e

/-- main.rs lines 129-132: the shared final extractor call issued with the
resolved breakpad ID; its `Ok`/`Err` is returned unchanged. `callsSoFar`
is the trace accumulated before this call. -/
def finalCall (ext : Extractor) (debugName id : String)
    (callsSoFar : List (String × String)) : NegotiationResult :=
  ⟨toOutcome (ext debugName id), callsSoFar ++ [(debugName, id)]⟩

/-- The sentinel breakpad ID used for the probe call, main.rs line 96. -/
def sentinelId : String := "<unspecified>"

/-- main.rs lines 83-133, `get_symbols_retry_id`.
With a known ID: one direct extractor call.  With no ID: a probe call with
the sentinel; on success return the table; on a single mismatch retry with
the expected ID; on a multi-arch mismatch collect the candidate IDs and
either exit the process (all clean) or surface the first foreign sub-error;
any other probe error propagates unchanged. -/
def get_symbols_retry_id (ext : Extractor) (debugName : String)
    (breakpadId : Option String) : NegotiationResult :=
  match breakpadId with
  | some id => finalCall ext debugName id []
  | none =>
    match ext debugName sentinelId with
    | .ok table => ⟨.ok table, [(debugName, sentinelId)]⟩
    | .error (.unmatchedBreakpadId expected _) =>
      finalCall ext debugName expected [(debugName, sentinelId)]
    | .error (.noMatchMultiArch errors) =>
      match collectPotentialIds errors with
      | .ok potentialIds =>
        ⟨.processExit 0 potentialIds, [(debugName, sentinelId)]⟩
      | .error err => ⟨.error err, [(debugName, sentinelId)]⟩
    | .error err => ⟨.error err, [(debugName, sentinelId)]⟩

/-! ## File access provider (`Helper`, main.rs lines 143-175) -/

/-- A filesystem path, as its list of components; `Path.join` appends a
component, mirroring `PathBuf::join` with a single relative component. -/
def Path : Type := List String
deriving DecidableEq, Repr

/-- `PathBuf::join` for one component. -/
def Path.join (p : Path) (component : String) : Path :=
  List.append p [component]

/-- An I/O error value (descriptive message), as boxed by
`FileAndPathHelperResult`. -/
def IoError : Type := String
deriving DecidableEq, Repr

/-- The helper, holding the configured symbol directory (main.rs 143-145). -/
structure Helper where
  symbol_directory : Path

/-- main.rs lines 150-161: `get_candidate_paths_for_binary_or_pdb`.
Pure computation, no filesystem access: always `Ok` of the single
candidate `symbol_directory.join(debug_name)`.  The `breakpadId` argument
is bound but unused, exactly as `_breakpad_id` in the source. -/
def Helper.get_candidate_paths_for_binary_or_pdb (h : Helper)
    (debugName : String) (_breakpadId : String) :
    Except IoError (List Path) :=
  .ok [h.symbol_directory.join debugName]

/-- The filesystem oracle for `read_file`: what `File::open` and
`MmapOptions::new().map` return for each path/handle.  A file handle is
abstract (a `Nat`); a mapping is its byte contents. -/
structure FsOracle where
  openFile : Path → Except IoError Nat
  mmap : Nat → Except IoError (List Nat)

/-- Owned file data backed by a memory mapping (main.rs 135-141). -/
structure MmapFileContents where
  mapping : List Nat
deriving DecidableEq, Repr

/-- `OwnedFileData::get_data`: the bytes of the backing mapping. -/
def MmapFileContents.get_data (c : MmapFileContents) : List Nat :=
  c.mapping

/-- main.rs lines 163-174: `read_file`.  Opens the path, memory-maps the
handle, and wraps the mapping; either `?` failure propagates as the error
value (never a panic). -/
def Helper.read_file (_h : Helper) (fs : FsOracle) (path : Path) :
    Except IoError MmapFileContents :=
  match fs.openFile path with
  | .error e => .error e
  | .ok file =>
    match fs.mmap file with
    | .error e => .error e
    | .ok m => .ok ⟨m⟩

/-! ## UTF-8 validity and the dump loop (main.rs lines 47-71) -/

/-- Validity of a byte sequence as UTF-8, the check performed by
`std::str::from_utf8` (main.rs line 67): ASCII, and 2-, 3-, 4-byte
sequences with the standard continuation ranges (surrogates and
over-long encodings excluded). Bytes are `Nat`; any value outside a
leading-byte range (including values above 255) is invalid. -/
def validUtf8 : List Nat → Bool
  | [] => true
  | b0 :: rest =>
    if b0 < 0x80 then validUtf8 rest
    else if 0xC2 ≤ b0 ∧ b0 ≤ 0xDF then
      match rest with
      | b1 :: rest1 => (0x80 ≤ b1 && b1 ≤ 0xBF) && validUtf8 rest1
      | [] => false
    else if 0xE0 ≤ b0 ∧ b0 ≤ 0xEF then
      match rest with
      | b1 :: b2 :: rest2 =>
        (if b0 = 0xE0 then 0xA0 ≤ b1 && b1 ≤ 0xBF
         else if b0 = 0xED then 0x80 ≤ b1 && b1 ≤ 0x9F
         else 0x80 ≤ b1 && b1 ≤ 0xBF) &&
        (0x80 ≤ b2 && b2 ≤ 0xBF) && validUtf8 rest2
      | _ => false
    else if 0xF0 ≤ b0 ∧ b0 ≤ 0xF4 then
      match rest with
      | b1 :: b2 :: b3 :: rest3 =>
        (if b0 = 0xF0 then 0x90 ≤ b1 && b1 ≤ 0xBF
         else if b0 = 0xF4 then 0x80 ≤ b1 && b1 ≤ 0x8F
         else 0x80 ≤ b1 && b1 ≤ 0xBF) &&
        (0x80 ≤ b2 && b2 ≤ 0xBF) && (0x80 ≤ b3 && b3 ≤ 0xBF) &&
        validUtf8 rest3
      | _ => false
    else false

/-- The byte slice `&buffer[s..e]` (for `s ≤ e ≤ buffer.length`). -/
def sliceBytes (buffer : List Nat) (s e : Nat) : List Nat :=
  (buffer.drop s).take (e - s)

/-- How one iteration of the dump loop can fail: `boundsViolation` models
a Rust panic (out-of-bounds `index[i]`/`index[i+1]` access, or an invalid
slice range `start_pos..end_pos` of `buffer`); `utf8Error` models the
`Utf8Error` surfaced by the `?` on `std::str::from_utf8`. -/
inductive DumpError where
  | boundsViolation
  | utf8Error
deriving DecidableEq, Repr

/-- main.rs lines 55-69: the body of the `for (i, address)` loop over
`table.addr`, with `i` the running enumeration index.  Every access is
made explicit: `index[i]` and `index[i+1]` demand `i + 1 < index.length`
(Rust panics when either access is out of bounds), the slice demands
`start ≤ end ≤ buffer.length` (Rust panics otherwise), and UTF-8 decoding
goes through `validUtf8`.  Returns the printed `(address, symbol bytes)`
lines. -/
def dumpLoop (t : CompactSymbolTable) (full : Bool) :
    Nat → List Nat → Except DumpError (List (Nat × List Nat))
  | _, [] => .ok []
  | i, address :: rest =>
    if 15 ≤ i ∧ full = false then
      .ok []
    else if i + 1 < t.index.length then
      let startPos := t.index.getD i 0
      let endPos := t.index.getD (i + 1) 0
      if startPos ≤ endPos ∧ endPos ≤ t.buffer.length then
        let symbolBytes := sliceBytes t.buffer startPos endPos
        if validUtf8 symbolBytes then
          match dumpLoop t full (i + 1) rest with
          | .ok lines => .ok ((address, symbolBytes) :: lines)
          | .error e => .error e
        else .error .utf8Error
      else .error .boundsViolation
    else .error .boundsViolation

/-- main.rs lines 47-71: the symbol-printing part of `dump_table`,
iterating over `table.addr.iter().enumerate()` starting at index 0. -/
def dump_table_loop (t : CompactSymbolTable) (full : Bool) :
    Except DumpError (List (Nat × List Nat)) :=
  dumpLoop t full 0 t.addr

/-! ## Lemmas about `collectPotentialIds` -/

/-- When every sub-error is a clean identifier mismatch, the walk over a
`NoMatchMultiArch` succeeds and collects the expected IDs in order. -/
theorem collectPotentialIds_all_clean (errors : List GetSymbolsError)
    (h : errors.all GetSymbolsError.isCleanMismatch = true) :
    collectPotentialIds errors = .ok (errors.map GetSymbolsError.expectedId) := by
  induction errors with
  | nil => rfl
  | cons e es ih =>
    cases e with
    | unmatchedBreakpadId expected got =>
      simp only [List.all_cons, Bool.and_eq_true] at h
      simp [collectPotentialIds, GetSymbolsError.expectedId, ih h.2]
    | noMatchMultiArch l =>
      simp [List.all_cons, GetSymbolsError.isCleanMismatch] at h
    | other m =>
      simp [List.all_cons, GetSymbolsError.isCleanMismatch] at h

/-- The walk over a `NoMatchMultiArch` stops at the first sub-error that is
not a clean identifier mismatch and returns exactly that sub-error. -/
theorem collectPotentialIds_first_foreign (pre : List GetSymbolsError)
    (bad : GetSymbolsError) (rest : List GetSymbolsError)
    (hpre : pre.all GetSymbolsError.isCleanMismatch = true)
    (hbad : bad.isCleanMismatch = false) :
    collectPotentialIds (pre ++ bad :: rest) = .error bad := by
  induction pre with
  | nil =>
    cases bad with
    | unmatchedBreakpadId expected got =>
      simp [GetSymbolsError.isCleanMismatch] at hbad
    | noMatchMultiArch l => rfl
    | other m => rfl
  | cons p ps ih =>
    cases p with
    | unmatchedBreakpadId expected got =>
      simp only [List.all_cons, Bool.and_eq_true] at hpre
      simp [collectPotentialIds, ih hpre.2]
    | noMatchMultiArch l =>
      simp [List.all_cons, GetSymbolsError.isCleanMismatch] at hpre
    | other m =>
      simp [List.all_cons, GetSymbolsError.isCleanMismatch] at hpre

/-! ## Concrete fixtures used by the witnesses -/

/-- A small concrete symbol table: one symbol, name bytes "hello". -/
def tableHello : CompactSymbolTable :=
  ⟨[4096], [0, 5], [104, 101, 108, 108, 111]⟩

/-- An extractor that always succeeds. -/
def extAlwaysOk : Extractor := fun _ _ => .ok tableHello

/-- An extractor reporting a single identifier mismatch for the sentinel
and succeeding for every other identifier. -/
def extSingleMismatch : Extractor := fun _ id =>
  if id = "<unspecified>" then
    .error (.unmatchedBreakpadId "REALID1" "<unspecified>")
  else .ok tableHello

/-- An extractor reporting a multi-arch mismatch whose sub-errors are all
clean identifier mismatches. -/
def extMultiArchClean : Extractor := fun _ _ =>
  .error (.noMatchMultiArch
    [.unmatchedBreakpadId "IDX86" "<unspecified>",
     .unmatchedBreakpadId "IDARM" "<unspecified>"])

/-- An extractor reporting a multi-arch mismatch in which the second
sub-error is not a clean identifier mismatch. -/
def extMultiArchForeign : Extractor := fun _ _ =>
  .error (.noMatchMultiArch
    [.unmatchedBreakpadId "IDX86" "<unspecified>",
     .other "io error",
     .unmatchedBreakpadId "IDARM" "<unspecified>"])

/-- An extractor failing the probe with an error of a different class. -/
def extOtherProbe : Extractor := fun _ _ => .error (.other "format error")

/-! ## Claims -/

/-- C2: with a present identifier, `get_symbols_retry_id` issues exactly one
extractor call, passing that identifier, and returns that call's table or
error unchanged. -/
theorem c2_known_id_single_call (ext : Extractor) (debugName id : String) :
    get_symbols_retry_id ext debugName (some id) =
      ⟨toOutcome (ext debugName id), [(debugName, id)]⟩ := rfl

/-- C3: with an absent identifier, when the probe call fails with a single
identifier mismatch naming one expected identifier, exactly two extractor
calls are issued, the second using the expected identifier, and the second
call's result (table or error) is returned. -/
theorem c3_single_mismatch_retry (ext : Extractor) (debugName expected got : String)
    (hprobe : ext debugName sentinelId =
      .error (.unmatchedBreakpadId expected got)) :
    get_symbols_retry_id ext debugName none =
      ⟨toOutcome (ext debugName expected),
       [(debugName, sentinelId), (debugName, expected)]⟩ := by
  simp only [get_symbols_retry_id, hprobe]
  rfl

/-- Witness for C3 at a concrete extractor: probe mismatch names
`REALID1`, the retry with `REALID1` succeeds with `tableHello`. -/
theorem c3_single_mismatch_retry_witness :
    get_symbols_retry_id extSingleMismatch "app.dbg" none =
      ⟨.ok tableHello, [("app.dbg", sentinelId), ("app.dbg", "REALID1")]⟩ := by
  have h := c3_single_mismatch_retry extSingleMismatch "app.dbg" "REALID1"
    "<unspecified>" (by rfl)
  rw [h]
  rfl

/-- C6: with an absent identifier, the first extractor call always passes
the fixed sentinel identifier string `"<unspecified>"`, and if that probe
call succeeds its table is returned as-is with no second call. -/
theorem c6_probe_uses_sentinel (ext : Extractor) (debugName : String) :
    sentinelId = "<unspecified>" ∧
    (get_symbols_retry_id ext debugName none).calls.head? =
      some (debugName, sentinelId) ∧
    (∀ t, ext debugName sentinelId = .ok t →
      get_symbols_retry_id ext debugName none =
        ⟨.ok t, [(debugName, sentinelId)]⟩) := by
  refine ⟨rfl, ?_, ?_⟩
  · simp only [get_symbols_retry_id]
    split
    · rfl
    · rfl
    · split
      · rfl
      · rfl
    · rfl
  · intro t ht
    simp only [get_symbols_retry_id, ht]

/-- Witness for C6 at a concrete extractor whose probe call succeeds. -/
theorem c6_probe_uses_sentinel_witness :
    sentinelId = "<unspecified>" ∧
    (get_symbols_retry_id extAlwaysOk "app.dbg" none).calls.head? =
      some ("app.dbg", sentinelId) ∧
    get_symbols_retry_id extAlwaysOk "app.dbg" none =
      ⟨.ok tableHello, [("app.dbg", sentinelId)]⟩ := by
  have h := c6_probe_uses_sentinel extAlwaysOk "app.dbg"
  exact ⟨h.1, h.2.1, h.2.2 tableHello rfl⟩

/-- C5: every invocation issues at most two extractor calls, and a second
call happens only in the absent-identifier branch, after the probe call
completed and its result was inspected: the first call in a two-call trace
is the sentinel probe and the second call's identifier is the expected
value carried by the probe call's mismatch error. -/
theorem c5_at_most_two_sequential_calls (ext : Extractor) (debugName : String)
    (breakpadId : Option String) :
    (get_symbols_retry_id ext debugName breakpadId).calls.length ≤ 2 ∧
    (∀ c1 c2, (get_symbols_retry_id ext debugName breakpadId).calls = [c1, c2] →
      breakpadId = none ∧ c1 = (debugName, sentinelId) ∧ c2.1 = debugName ∧
      ∃ got, ext debugName sentinelId =
        .error (.unmatchedBreakpadId c2.2 got)) := by
  cases breakpadId with
  | some id =>
    refine ⟨by simp [get_symbols_retry_id, finalCall], ?_⟩
    intro c1 c2 hc
    simp [get_symbols_retry_id, finalCall] at hc
  | none =>
    simp only [get_symbols_retry_id]
    split
    · exact ⟨by simp, by intro c1 c2 hc; simp at hc⟩
    · rename_i expected got heq
      refine ⟨by simp [finalCall], ?_⟩
      intro c1 c2 hc
      simp only [finalCall, List.cons_append, List.nil_append,
        List.cons.injEq, and_true] at hc
      obtain ⟨h1, h2⟩ := hc
      subst h1
      subst h2
      exact ⟨by trivial, rfl, rfl, got, heq⟩
    · split
      · exact ⟨by simp, by intro c1 c2 hc; simp at hc⟩
      · exact ⟨by simp, by intro c1 c2 hc; simp at hc⟩
    · exact ⟨by simp, by intro c1 c2 hc; simp at hc⟩

/-- Witness for C5 at a concrete extractor that triggers the two-call
retry path. -/
theorem c5_at_most_two_sequential_calls_witness :
    (get_symbols_retry_id extSingleMismatch "app.dbg" none).calls.length ≤ 2 ∧
    ∃ got, extSingleMismatch "app.dbg" sentinelId =
      .error (.unmatchedBreakpadId "REALID1" got) := by
  have h := c5_at_most_two_sequential_calls extSingleMismatch "app.dbg" none
  refine ⟨h.1, ?_⟩
  have h2 := h.2 ("app.dbg", sentinelId) ("app.dbg", "REALID1") (by rfl)
  exact h2.2.2.2

/-- C4: with an absent identifier, a probe error that is neither of the two
identifier-mismatch shapes is returned unchanged with no retry; and inside
a multi-candidate mismatch the first sub-error that is not a clean
identifier mismatch is surfaced immediately as the hard error (not added
to the candidate list), with no further extractor calls. -/
theorem c4_foreign_errors_propagate (ext : Extractor) (debugName : String)
    (e : GetSymbolsError) (hprobe : ext debugName sentinelId = .error e) :
    (e.isCleanMismatch = false → e.isMultiArch = false →
      get_symbols_retry_id ext debugName none =
        ⟨.error e, [(debugName, sentinelId)]⟩) ∧
    (∀ errors pre bad rest, e = .noMatchMultiArch errors →
      errors = pre ++ bad :: rest →
      pre.all GetSymbolsError.isCleanMismatch = true →
      bad.isCleanMismatch = false →
      get_symbols_retry_id ext debugName none =
        ⟨.error bad, [(debugName, sentinelId)]⟩) := by
  constructor
  · intro hclean hmulti
    cases e with
    | unmatchedBreakpadId expected got =>
      simp [GetSymbolsError.isCleanMismatch] at hclean
    | noMatchMultiArch errors =>
      simp [GetSymbolsError.isMultiArch] at hmulti
    | other m =>
      simp only [get_symbols_retry_id, hprobe]
  · intro errors pre bad rest he herr hpre hbad
    subst he herr
    simp only [get_symbols_retry_id, hprobe]
    rw [collectPotentialIds_first_foreign pre bad rest hpre hbad]

/-- Witness for C4 at two concrete extractors: a probe failing with a
different error class, and a multi-arch mismatch containing a foreign
sub-error. -/
theorem c4_foreign_errors_propagate_witness :
    get_symbols_retry_id extOtherProbe "app.dbg" none =
      ⟨.error (.other "format error"), [("app.dbg", sentinelId)]⟩ ∧
    get_symbols_retry_id extMultiArchForeign "app.dbg" none =
      ⟨.error (.other "io error"), [("app.dbg", sentinelId)]⟩ := by
  constructor
  · exact (c4_foreign_errors_propagate extOtherProbe "app.dbg"
      (.other "format error") rfl).1 rfl rfl
  · exact (c4_foreign_errors_propagate extMultiArchForeign "app.dbg"
      (.noMatchMultiArch
        [.unmatchedBreakpadId "IDX86" "<unspecified>",
         .other "io error",
         .unmatchedBreakpadId "IDARM" "<unspecified>"]) rfl).2
      [.unmatchedBreakpadId "IDX86" "<unspecified>",
       .other "io error",
       .unmatchedBreakpadId "IDARM" "<unspecified>"]
      [.unmatchedBreakpadId "IDX86" "<unspecified>"]
      (.other "io error")
      [.unmatchedBreakpadId "IDARM" "<unspecified>"]
      rfl rfl rfl rfl

/-- C1 counterexample: at a concrete multi-candidate clean mismatch the
negotiator does not return the candidate list as a normal result value —
it terminates the process (modelled `processExit`, `std::process::exit(0)`
at main.rs line 122), contradicting the claim's "not process termination".
It does, as claimed, print all candidates and issue no further extractor
call. -/
theorem c1_multiarch_counterexample :
    (get_symbols_retry_id extMultiArchClean "app.dbg" none).outcome =
      .processExit 0 ["IDX86", "IDARM"] ∧
    (get_symbols_retry_id extMultiArchClean "app.dbg" none).calls.length = 1 := by
  constructor <;> rfl

/-- C1 amended: with an absent identifier and a multi-candidate mismatch in
which every reported sub-error is a clean identifier mismatch, the
negotiator collects the full candidate list in order, issues no further
extractor calls, raises no error, and terminates the process with exit
status 0 after printing the candidates (rather than returning them as a
result value). -/
theorem c1_multiarch_exits_with_candidates (ext : Extractor) (debugName : String)
    (errors : List GetSymbolsError)
    (hprobe : ext debugName sentinelId = .error (.noMatchMultiArch errors))
    (hclean : errors.all GetSymbolsError.isCleanMismatch = true) :
    get_symbols_retry_id ext debugName none =
      ⟨.processExit 0 (errors.map GetSymbolsError.expectedId),
       [(debugName, sentinelId)]⟩ := by
  simp only [get_symbols_retry_id, hprobe]
  rw [collectPotentialIds_all_clean errors hclean]

/-- Witness for the amended C1 at the concrete two-candidate extractor. -/
theorem c1_multiarch_exits_with_candidates_witness :
    get_symbols_retry_id extMultiArchClean "app.dbg" none =
      ⟨.processExit 0 ["IDX86", "IDARM"], [("app.dbg", sentinelId)]⟩ := by
  have h := c1_multiarch_exits_with_candidates extMultiArchClean "app.dbg"
    [.unmatchedBreakpadId "IDX86" "<unspecified>",
     .unmatchedBreakpadId "IDARM" "<unspecified>"] rfl rfl
  rw [h]
  rfl

/-- C7: for every binary name and every identifier, `candidate_paths`
returns `Ok` with exactly one candidate path, the binary name joined under
the configured root directory.  The operation is a pure total Lean
function, so it performs no I/O. -/
theorem c7_single_candidate_path (h : Helper) (debugName breakpadId : String) :
    h.get_candidate_paths_for_binary_or_pdb debugName breakpadId =
      .ok [h.symbol_directory.join debugName] := rfl

/-- C10: the candidate-path computation ignores the identifier argument
entirely: any two identifier values (the sentinel included) yield the same
candidate path list. -/
theorem c10_candidate_paths_ignore_id (h : Helper) (debugName id1 id2 : String) :
    h.get_candidate_paths_for_binary_or_pdb debugName id1 =
      h.get_candidate_paths_for_binary_or_pdb debugName id2 := rfl

/-- C8: for every path and every filesystem behaviour, `read_file` is total
(never a crash): it returns owned file data whose bytes are exactly the
memory mapping of the opened file, or it fails with the descriptive error
value produced by the failing open or mapping step. -/
theorem c8_read_file_total (h : Helper) (fs : FsOracle) (path : Path) :
    (∃ file m, fs.openFile path = .ok file ∧ fs.mmap file = .ok m ∧
      h.read_file fs path = .ok ⟨m⟩ ∧ MmapFileContents.get_data ⟨m⟩ = m) ∨
    (∃ e, h.read_file fs path = .error e ∧
      (fs.openFile path = .error e ∨
        ∃ file, fs.openFile path = .ok file ∧ fs.mmap file = .error e)) := by
  cases hopen : fs.openFile path with
  | error e =>
    exact .inr ⟨e, by simp only [Helper.read_file, hopen], .inl rfl⟩
  | ok file =>
    cases hm : fs.mmap file with
    | error e =>
      exact .inr ⟨e, by simp only [Helper.read_file, hopen, hm],
        .inr ⟨file, rfl, hm⟩⟩
    | ok m =>
      exact .inl ⟨file, m, rfl, hm,
        by simp only [Helper.read_file, hopen, hm], rfl⟩

/-- Helper for C9: under the table invariant, dumping any suffix of the
address list starting at enumeration index `i` succeeds: no bounds
violation and no UTF-8 decoding failure. -/
theorem dumpLoop_ok_of_invariant (t : CompactSymbolTable) (full : Bool)
    (hlen : t.index.length = t.addr.length + 1)
    (hmono : ∀ i < t.addr.length, t.index.getD i 0 ≤ t.index.getD (i + 1) 0)
    (hbound : ∀ i < t.index.length, t.index.getD i 0 ≤ t.buffer.length)
    (hutf8 : ∀ i < t.addr.length,
      validUtf8 (sliceBytes t.buffer (t.index.getD i 0)
        (t.index.getD (i + 1) 0)) = true) :
    ∀ (l : List Nat) (i : Nat), i + l.length = t.addr.length →
      ∃ lines, dumpLoop t full i l = .ok lines := by
  intro l
  induction l with
  | nil => exact fun i _ => ⟨[], rfl⟩
  | cons a rest ih =>
    intro i hil
    have hil2 : i + rest.length + 1 = t.addr.length := by
      rw [List.length_cons] at hil
      omega
    have hi : i < t.addr.length := by omega
    have hi2 : i + 1 < t.index.length := by omega
    by_cases hbreak : 15 ≤ i ∧ full = false
    · exact ⟨[], by simp only [dumpLoop, if_pos hbreak]⟩
    · have hse : t.index.getD i 0 ≤ t.index.getD (i + 1) 0 := hmono i hi
      have heb : t.index.getD (i + 1) 0 ≤ t.buffer.length := hbound (i + 1) hi2
      have hu := hutf8 i hi
      obtain ⟨lines, hrec⟩ := ih (i + 1) (by omega)
      refine ⟨(a, sliceBytes t.buffer (t.index.getD i 0)
        (t.index.getD (i + 1) 0)) :: lines, ?_⟩
      simp only [dumpLoop, if_neg hbreak, if_pos hi2]
      rw [if_pos ⟨hse, heb⟩, if_pos hu, hrec]

/-- C9: for every compact symbol table satisfying the stated invariant
(`index` one longer than `addr`, non-decreasing and bounded by the buffer
length, each per-symbol slice valid UTF-8), every access of the dump loop
is in bounds and succeeds: it never hits a bounds violation (Rust panic)
and never takes the `Utf8Error` branch, for both values of `full`. -/
theorem c9_dump_loop_never_fails (t : CompactSymbolTable) (full : Bool)
    (hlen : t.index.length = t.addr.length + 1)
    (hmono : ∀ i < t.addr.length, t.index.getD i 0 ≤ t.index.getD (i + 1) 0)
    (hbound : ∀ i < t.index.length, t.index.getD i 0 ≤ t.buffer.length)
    (hutf8 : ∀ i < t.addr.length,
      validUtf8 (sliceBytes t.buffer (t.index.getD i 0)
        (t.index.getD (i + 1) 0)) = true) :
    ∃ lines, dump_table_loop t full = .ok lines :=
  dumpLoop_ok_of_invariant t full hlen hmono hbound hutf8 t.addr 0
    (Nat.zero_add _)

/-- A concrete two-symbol table satisfying the invariant: names are the
UTF-8 byte runs "foo" and "bars". -/
def tableFoo : CompactSymbolTable :=
  ⟨[4096, 8192], [0, 3, 7], [102, 111, 111, 98, 97, 114, 115]⟩

/-- Witness for C9 at the concrete table `tableFoo`. -/
theorem c9_dump_loop_never_fails_witness :
    ∃ lines, dump_table_loop tableFoo true = .ok lines :=
  c9_dump_loop_never_fails tableFoo true (by decide) (by decide) (by decide)
    (by decide)

end DumpTable
